import Mathlib

/-!
Verification of the BackUP transfer engine (`engine/src`) against its
natural-language specification.

The engine is shallowly embedded: pure Rust functions become Lean functions,
and the filesystem / OS interactions (does a destination exist, metadata
reads, byte copies, checksum computations, clock reads) are supplied by an
explicit environment value, so that one Lean evaluation corresponds to one
concrete execution of the Rust code under a fixed sequence of syscall
results.  Machine integers (`u64`, `u32`) are modelled as `Nat`, with
explicit `% 2 ^ 32` where the CRC bit arithmetic depends on the width.
`Uuid` fields (pure external randomness, never read by the engine) are
omitted from the model.
-/

namespace BackUP

/-- A filesystem path, modelled as its list of components. -/
abbrev FsPath := List String

/-- The subset of `std::io::ErrorKind` the engine inspects. -/
inductive IoKind where
  | permissionDenied
  | notFound
  | other
deriving DecidableEq, Repr

/-- An `std::io::Error`: a kind, an optional raw OS error code, and a
rendered message. -/
structure IoErr where
  kind : IoKind
  code : Option Nat
  msg : String
deriving DecidableEq, Repr

/-- `OverwritePolicy` from `model.rs`. -/
inductive OverwritePolicy where
  | skip
  | overwrite
  | ask
  | smartUpdate
deriving DecidableEq, Repr

/-- `Mode` from `model.rs`. -/
inductive Mode where
  | copy
  | move
deriving DecidableEq, Repr

/-- `FileState` from `model.rs`. -/
inductive FileState where
  | pending
  | copying
  | done
  | skipped
  | failed
deriving DecidableEq, Repr

/-- `FileState::is_terminal` from `model.rs`. -/
def FileState.is_terminal : FileState → Bool
  | .done => true
  | .skipped => true
  | .failed => true
  | _ => false

/-- `JobState` from `model.rs`. -/
inductive JobState where
  | pending
  | running
  | completed
deriving DecidableEq, Repr

/-- `ChecksumAlgorithm` from `checksums.rs`. -/
inductive ChecksumAlgorithm where
  | crc32
  | md5
  | sha256
  | blake3
deriving DecidableEq, Repr

/-- `ChecksumValue` from `checksums.rs`: an algorithm tag plus a hex string. -/
structure ChecksumValue where
  algorithm : ChecksumAlgorithm
  hex : String
deriving DecidableEq, Repr

/-- `FileMetadata` from `model.rs`. -/
structure FileMetadata where
  source_checksum : Option ChecksumValue
  dest_checksum : Option ChecksumValue
  verification_passed : Option Bool
  attributes : Option Nat
deriving DecidableEq, Repr

/-- `FileItem` from `model.rs` (the random `id : Uuid` is omitted). -/
structure FileItem where
  source_path : FsPath
  destination_path : FsPath
  file_size : Nat
  state : FileState
  bytes_copied : Nat
  error_code : Option Nat
  error_message : Option String
  is_dir : Bool
  last_modified : Option Nat
  metadata : FileMetadata
deriving DecidableEq, Repr

/-- Render a path for error messages (stands in for `Path::display`). -/
def FsPath.render (p : FsPath) : String := String.intercalate "/" p

/-- `EngineError` from `error.rs` (variants the modelled code can produce). -/
inductive EngineError where
  | sourceNotFound (path : FsPath)
  | sourceAccessDenied (path : FsPath) (source : IoErr)
  | readError (path : FsPath) (source : IoErr)
  | writeError (path : FsPath) (source : IoErr)
  | invalidPath (path : FsPath) (reason : String)
  | enumerationFailed (path : FsPath) (source : IoErr)
  | directoryCreationFailed (path : FsPath) (source : IoErr)
deriving DecidableEq, Repr

/-- `EngineError::raw_os_error` from `error.rs`. -/
def EngineError.raw_os_error : EngineError → Option Nat
  | .sourceAccessDenied _ s => s.code
  | .readError _ s => s.code
  | .writeError _ s => s.code
  | .enumerationFailed _ s => s.code
  | .directoryCreationFailed _ s => s.code
  | _ => none

/-- The `Display` impl for `EngineError` from `error.rs`. -/
def EngineError.render : EngineError → String
  | .sourceNotFound p => "Source directory not found: " ++ p.render
  | .sourceAccessDenied p _ => "Source directory access denied: " ++ p.render
  | .readError p _ => "Failed to read file: " ++ p.render
  | .writeError p _ => "Failed to write file: " ++ p.render
  | .invalidPath p r => "Invalid path: " ++ p.render ++ " (" ++ r ++ ")"
  | .enumerationFailed p _ => "Failed to enumerate directory: " ++ p.render
  | .directoryCreationFailed p _ => "Failed to create directory: " ++ p.render

/-- `JobMetadata` from `model.rs`. -/
structure JobMetadata where
  custom_data : Option String
deriving DecidableEq, Repr

/-- `TransferJob` from `model.rs` (the random `id : Uuid` is omitted;
timestamps are abstract `Nat` clock readings). -/
structure TransferJob where
  mode : Mode
  source_path : FsPath
  destination_path : FsPath
  overwrite_policy : OverwritePolicy
  files : List FileItem
  state : JobState
  error : Option EngineError
  total_bytes_to_copy : Nat
  total_bytes_copied : Nat
  current_file_index : Option Nat
  created_at : Nat
  start_time : Option Nat
  end_time : Option Nat
  metadata : JobMetadata
  checksum_algorithm : Option ChecksumAlgorithm
  verify_after_copy : Bool
deriving DecidableEq, Repr

/-! ### Transfer policy (`should_copy_file`, job.rs lines 19-56)

The function reads two facts from the filesystem: whether
`file.destination_path` exists, and — for `SmartUpdate` — the result of
`fs::metadata(&file.destination_path)`.  Both are passed explicitly:
`destExists` is the result of `.exists()`, and `dstMeta` is the metadata
read, `.ok size` on success and `.error e` on failure. -/

/-- `should_copy_file` from `job.rs`, with the two filesystem probes made
explicit arguments. -/
def should_copy_file (destExists : Bool) (dstMeta : Except IoErr Nat)
    (file : FileItem) (policy : OverwritePolicy) : Bool :=
  if file.is_dir then
    true
  else if !destExists then
    true
  else
    match policy with
    | .skip => false
    | .overwrite => true
    | .ask => false
    | .smartUpdate =>
      match dstMeta with
      | .ok dst_size => if dst_size ≠ file.file_size then true else false
      | .error _ => true

/-! ### Directory creation (`ensure_parent_dir_exists`, fs_ops.rs lines 192-229)

The two filesystem probes — `fs::metadata(parent)` and
`fs::create_dir_all(parent)` — are supplied by a `ParentEnv`. -/

/-- Environment for one call of `ensure_parent_dir_exists`: the result of
`fs::metadata(parent)` (`.ok is_dir` on success) and of
`fs::create_dir_all(parent)`. -/
structure ParentEnv where
  meta : Except IoErr Bool
  createAll : Except IoErr Unit
deriving Repr

/-- `ensure_parent_dir_exists` from `fs_ops.rs`. -/
def ensure_parent_dir_exists (env : ParentEnv) (path : FsPath) :
    Except EngineError Unit :=
  match path with
  | [] => .ok ()
  | _ =>
    let parent := path.dropLast
    if parent = [] then
      .ok ()
    else
      match env.meta with
      | .ok true => .ok ()
      | .ok false =>
        .error (.directoryCreationFailed parent
          ⟨.other, none, "Parent path exists but is not a directory"⟩)
      | .error e =>
        if e.kind = .notFound then
          match env.createAll with
          | .ok _ => .ok ()
          | .error e2 => .error (.directoryCreationFailed parent e2)
        else
          .error (.directoryCreationFailed parent e)

/-! ### File copy primitive (`copy_file_with_metadata`, fs_ops.rs lines 137-183)

Each fallible step is supplied by the environment.  The `io::copy` step
additionally carries the ground-truth side (source read vs destination
write) on which the I/O failure actually occurred; the Rust code never sees
this side, only the error's kind. -/

/-- Which side of a streaming copy an `io::copy` failure actually occurred
on (ground truth of the environment, invisible to the code). -/
inductive Side where
  | read
  | write
deriving DecidableEq, Repr

/-- Environment for one call of `copy_file_with_metadata`. -/
structure CopyEnv where
  parentEnv : ParentEnv
  openSrc : Except IoErr Unit
  srcMetadata : Except IoErr (Option Nat)
  createDst : Except IoErr Unit
  ioCopy : Except (Side × IoErr) Nat
deriving Repr

/-- `copy_file_with_metadata` from `fs_ops.rs`.  The final
modification-time preservation step has its errors silently dropped in the
source (`let _ = ...`), so it has no observable effect here. -/
def copy_file_with_metadata (env : CopyEnv) (src dst : FsPath) :
    Except EngineError Nat :=
  match ensure_parent_dir_exists env.parentEnv dst with
  | .error e => .error e
  | .ok _ =>
  match env.openSrc with
  | .error e => .error (.readError src e)
  | .ok _ =>
  match env.srcMetadata with
  | .error e => .error (.readError src e)
  | .ok _mtime =>
  match env.createDst with
  | .error e => .error (.writeError dst e)
  | .ok _ =>
  match env.ioCopy with
  | .error (_, e) =>
    if e.kind = .permissionDenied then .error (.writeError dst e)
    else .error (.readError src e)
  | .ok n => .ok n

/-! ### Checksum verification of one item (`verify_file_item`, checksums.rs
lines 383-411)

The two `compute_file_checksum` calls are supplied by the environment. -/

/-- Environment for one call of `verify_file_item`: the results of
`compute_file_checksum` on the source and on the destination. -/
structure VerifyEnv where
  src : Except IoErr ChecksumValue
  dst : Except IoErr ChecksumValue
deriving Repr

/-- `verify_file_item` from `checksums.rs`.  Returns the Rust function's
return value together with the mutated `FileItem`. -/
def verify_file_item (env : VerifyEnv) (file : FileItem) :
    Except EngineError Bool × FileItem :=
  if file.is_dir then
    (.ok true,
     {file with metadata := {file.metadata with verification_passed := some true}})
  else
    let step : Except EngineError (ChecksumValue × FileItem) :=
      match file.metadata.source_checksum with
      | some cs => .ok (cs, file)
      | none =>
        match env.src with
        | .error e => .error (.readError file.source_path e)
        | .ok cs =>
          .ok (cs, {file with metadata :=
            {file.metadata with source_checksum := some cs}})
    match step with
    | .error e => (.error e, file)
    | .ok (scs, f1) =>
      match env.dst with
      | .error e => (.error (.readError f1.destination_path e), f1)
      | .ok dcs =>
        let f2 := {f1 with metadata :=
          {f1.metadata with dest_checksum := some dcs}}
        let ok := scs.hex == dcs.hex
        (.ok ok, {f2 with metadata :=
          {f2.metadata with verification_passed := some ok}})

/-! ### The execution loop (`run_job`, job.rs lines 71-206)

Each loop iteration touches only `job.files[i]` and the running byte
total; `processItem` is the body of one iteration.  The transient
`Copying` state and the transient `current_file_index = Some(i)` are
overwritten before `run_job` returns, so only their final values appear.
Progress callbacks receive read-only references and never mutate the job,
so they are not modelled. -/

/-- Environment for one iteration of the `run_job` loop over one item. -/
structure ItemEnv where
  destExists : Bool
  dstMeta : Except IoErr Nat
  dirParentEnv : ParentEnv
  copyEnv : CopyEnv
  verifyEnv : VerifyEnv
deriving Repr

/-- The verification block of the `run_job` loop (job.rs lines 158-179):
run only when `job.checksum_algorithm` is `Some` and
`job.verify_after_copy` is set; a mismatch or a verification error is
recorded as an item-level error message without changing the item's
state. -/
def applyVerification (e : VerifyEnv) (alg : Option ChecksumAlgorithm)
    (verifyAfter : Bool) (f1 : FileItem) : FileItem :=
  match alg, verifyAfter with
  | some _, true =>
    match verify_file_item e f1 with
    | (.ok ok, f') =>
      if !ok then
        let msg := "Checksum verification failed: source and destination differ"
        {f' with error_message := some msg}
      else f'
    | (.error ve, f') =>
      let msg := "Checksum verification error: " ++ ve.render
      {f' with error_message := some msg}
  | _, _ => f1

/-- The body of one `run_job` loop iteration (job.rs lines 93-193):
returns the item's final value and the number of bytes added to
`job.total_bytes_copied` by this iteration. -/
def processItem (e : ItemEnv) (policy : OverwritePolicy)
    (alg : Option ChecksumAlgorithm) (verifyAfter : Bool)
    (file : FileItem) : FileItem × Nat :=
  if !(should_copy_file e.destExists e.dstMeta file policy) then
    ({file with state := .skipped}, 0)
  else if file.is_dir then
    match ensure_parent_dir_exists e.dirParentEnv file.destination_path with
    | .ok _ => ({file with state := .done}, 0)
    | .error err =>
      ({ file with
          state := .failed
          error_code := err.raw_os_error
          error_message := some err.render }, 0)
  else
    match copy_file_with_metadata e.copyEnv file.source_path
        file.destination_path with
    | .ok n =>
      (applyVerification e.verifyEnv alg verifyAfter
        {file with bytes_copied := n, state := .done}, n)
    | .error err =>
      ({ file with
          state := .failed
          error_code := err.raw_os_error
          error_message := some err.render }, 0)

/-- The `run_job` loop over the item list, starting at index `i`:
returns the final items and the total bytes accumulated. -/
def run_files (env : Nat → ItemEnv) (policy : OverwritePolicy)
    (alg : Option ChecksumAlgorithm) (verifyAfter : Bool) :
    Nat → List FileItem → List FileItem × Nat
  | _, [] => ([], 0)
  | i, f :: rest =>
    let r := processItem (env i) policy alg verifyAfter f
    let rr := run_files env policy alg verifyAfter (i + 1) rest
    (r.1 :: rr.1, r.2 + rr.2)

/-- The Debug rendering of a `JobState` (used in the not-Pending error). -/
def JobState.debugRepr : JobState → String
  | .pending => "Pending"
  | .running => "Running"
  | .completed => "Completed"

/-- Environment for one call of `run_job`: per-item environments plus the
two clock readings. -/
structure RunEnv where
  item : Nat → ItemEnv
  startTime : Nat
  endTime : Nat

/-- `run_job` from `job.rs`: returns the Rust function's return value
together with the mutated job. -/
def run_job (env : RunEnv) (job : TransferJob) :
    Except EngineError Unit × TransferJob :=
  if job.state ≠ JobState.pending then
    (.error (.invalidPath job.source_path
      ("Job must be in Pending state to run; current state: "
        ++ job.state.debugRepr)), job)
  else
    let r := run_files env.item job.overwrite_policy job.checksum_algorithm
      job.verify_after_copy 0 job.files
    (.ok (),
     { job with
        state := .completed
        start_time := some env.startTime
        end_time := some env.endTime
        current_file_index := none
        files := r.1
        total_bytes_copied := job.total_bytes_copied + r.2 })

/-! ### Tree enumeration (`enumerate_tree`, fs_ops.rs lines 28-124)

The filesystem under the source root is modelled as a tree: `read_dir` on a
directory either fails or yields a list of entries, and retrieving an entry
(or its metadata) inside the iteration either fails or yields a file or a
subdirectory.  `FsNode.dirFail` is a subdirectory whose own `read_dir`
fails; `FsNode.errEnt` is a position in the listing where the
`entry`/`entry.metadata()` step fails, which the Rust code propagates with
`?` out of the enclosing `for` loop. -/

/-- One entry of a directory listing, as observed by `recurse`. -/
inductive FsNode where
  | fileEnt (name : String) (size : Nat)
  | dirFail (name : String) (e : IoErr)
  | dirOk (name : String) (sub : List FsNode)
  | errEnt (e : IoErr)
deriving Repr

/-- The all-`None` metadata block `recurse` attaches to fresh items. -/
def freshMetadata : FileMetadata := ⟨none, none, none, none⟩

/-- The `FileItem` pushed by `recurse` for one entry (fs_ops.rs lines
62-79 and 93-110). -/
def mkEnumItem (srcRoot dstRoot rel : FsPath) (name : String)
    (isDir : Bool) (size : Nat) : FileItem :=
  { source_path := srcRoot ++ rel ++ [name]
    destination_path := dstRoot ++ rel ++ [name]
    file_size := size
    state := .pending
    bytes_copied := 0
    error_code := none
    error_message := none
    is_dir := isDir
    last_modified := none
    metadata := freshMetadata }

/-- The recovery step at fs_ops.rs lines 83-90: if the last accumulated
item is the directory item for `entryPath`, mark it Failed with the
propagated error's code and message. -/
def markLast (items : List FileItem) (entryPath : FsPath)
    (err : EngineError) : List FileItem :=
  match items.getLast? with
  | none => items
  | some last =>
    if last.is_dir && last.source_path == entryPath then
      items.dropLast ++
        [{ last with
            state := .failed
            error_code := err.raw_os_error
            error_message := some err.render }]
    else items

/-- The `if let Err(e) = recurse(...)` recovery wrapper at fs_ops.rs lines
82-91: take the result of recursing into a subdirectory (accumulated items
plus propagated error) and, when there was an error, mark the
subdirectory's item via `markLast`. -/
def applyMarkIfErr (r : List FileItem × Option EngineError)
    (entryPath : FsPath) : List FileItem :=
  match r.2 with
  | none => r.1
  | some err => markLast r.1 entryPath err

/-- The body of `recurse` from `fs_ops.rs`, processing the entries of the
directory `srcRoot ++ rel`: returns the accumulated items (retained in the
shared `&mut Vec` even when an error propagates) and the propagated error,
if any.  A `dirFail` entry is a subdirectory whose inner `recurse` fails
immediately at `read_dir`, i.e. it returns its input items unchanged
together with the error. -/
def recurseEntries (srcRoot dstRoot : FsPath) :
    List FsNode → FsPath → List FileItem → List FileItem × Option EngineError
  | [], _, items => (items, none)
  | .errEnt e :: _, rel, items =>
    (items, some (.enumerationFailed (srcRoot ++ rel) e))
  | .fileEnt name size :: rest, rel, items =>
    recurseEntries srcRoot dstRoot rest rel
      (items ++ [mkEnumItem srcRoot dstRoot rel name false size])
  | .dirFail name e :: rest, rel, items =>
    recurseEntries srcRoot dstRoot rest rel
      (applyMarkIfErr
        (items ++ [mkEnumItem srcRoot dstRoot rel name true 0],
         some (.enumerationFailed (srcRoot ++ rel ++ [name]) e))
        (srcRoot ++ rel ++ [name]))
  | .dirOk name sub :: rest, rel, items =>
    recurseEntries srcRoot dstRoot rest rel
      (applyMarkIfErr
        (recurseEntries srcRoot dstRoot sub (rel ++ [name])
          (items ++ [mkEnumItem srcRoot dstRoot rel name true 0]))
        (srcRoot ++ rel ++ [name]))
termination_by l _ _ => sizeOf l

/-- `enumerate_tree` from `fs_ops.rs`; `root` is the result of `read_dir`
on the source root. -/
def enumerate_tree (root : Except IoErr (List FsNode))
    (srcRoot dstRoot : FsPath) : Except EngineError (List FileItem) :=
  match root with
  | .error e => .error (.enumerationFailed srcRoot e)
  | .ok entries =>
    let r := recurseEntries srcRoot dstRoot entries [] []
    match r.2 with
    | some err => .error err
    | none => .ok r.1

/-! ### Checksum hashers (`checksums.rs` lines 85-221)

Bytes are modelled as `Nat` (always `< 256` in the Rust code).  The CRC32
hasher's arithmetic is embedded in full from the source.  The MD5, SHA-256
and BLAKE3 hashers are thin wrappers around external crates
(`md5::Context`, `sha2::Sha256`, `blake3::Hasher`) whose code is not part
of this repository: each context is modelled from the crates' streaming
contract as the sequence of bytes consumed so far, with the actual digest
functions taken as parameters (`DigestFns`) at the finalize step. -/

/-- One round of the CRC32 inner bit loop (checksums.rs lines 109-115):
`crc = if crc & 1 == 1 { (crc >> 1) ^ 0xedb88320 } else { crc >> 1 }`. -/
def crcBitStep (crc : Nat) : Nat :=
  if crc % 2 = 1 then (crc / 2) ^^^ 0xedb88320 else crc / 2

/-- `n` rounds of the CRC32 bit loop. -/
def crcBits : Nat → Nat → Nat
  | 0, crc => crc
  | n + 1, crc => crcBits n (crcBitStep crc)

/-- Processing one byte in `Crc32Hasher::update`: xor the byte in, then
run the bit loop eight times. -/
def crcByte (crc b : Nat) : Nat := crcBits 8 (crc ^^^ b)

/-- A lowercase hex digit. -/
def hexDigit (n : Nat) : Char :=
  if n < 10 then Char.ofNat (48 + n) else Char.ofNat (87 + n)

/-- Lowercase hex digits of `n` (most significant first), `[]` for 0. -/
def hexDigitsAux : Nat → Nat → List Char
  | 0, _ => []
  | fuel + 1, n =>
    if n = 0 then [] else hexDigitsAux fuel (n / 16) ++ [hexDigit (n % 16)]

/-- `format!("{:08x}", n)`: lowercase hex, zero-padded to width 8. -/
def hex8 (n : Nat) : String :=
  let ds := hexDigitsAux n n
  String.mk (List.replicate (8 - ds.length) '0' ++ ds)

/-- The external digest functions of the md5, sha2 and blake3 crates,
abstracted: each maps the full consumed byte sequence to its hex digest
string. -/
structure DigestFns where
  md5F : List Nat → String
  sha256F : List Nat → String
  blake3F : List Nat → String

/-- The state of one of the four hashers behind `create_hasher`
(checksums.rs lines 94-219).  `crc32` holds the `crc: u32` register;
the three crate-backed hashers hold the bytes consumed so far. -/
inductive Hasher where
  | crc32 (crc : Nat)
  | md5 (consumed : List Nat)
  | sha256 (consumed : List Nat)
  | blake3 (consumed : List Nat)
deriving DecidableEq, Repr

/-- `ChecksumHasher::update` for each hasher.  `Crc32Hasher::update` folds
`crcByte` over the chunk; the crate-backed hashers consume (append) the
chunk — `Blake3Hasher::update` clones, updates and stores back, which is
the same append. -/
def Hasher.update : Hasher → List Nat → Hasher
  | .crc32 c, data => .crc32 (data.foldl crcByte c)
  | .md5 xs, data => .md5 (xs ++ data)
  | .sha256 xs, data => .sha256 (xs ++ data)
  | .blake3 xs, data => .blake3 (xs ++ data)

/-- `ChecksumHasher::finalize` for each hasher.  CRC32 xors with
`0xffffffff` and formats `{:08x}`; the crate-backed hashers apply their
digest function to the consumed bytes. -/
def Hasher.finalize (fs : DigestFns) : Hasher → ChecksumValue
  | .crc32 c => ⟨.crc32, hex8 (c ^^^ 0xffffffff)⟩
  | .md5 xs => ⟨.md5, fs.md5F xs⟩
  | .sha256 xs => ⟨.sha256, fs.sha256F xs⟩
  | .blake3 xs => ⟨.blake3, fs.blake3F xs⟩

/-- `create_hasher` from `checksums.rs`: the fresh hasher for each
algorithm (`Crc32Hasher::new` starts from `crc: 0`; the crate contexts
start having consumed nothing). -/
def create_hasher : ChecksumAlgorithm → Hasher
  | .crc32 => .crc32 0
  | .md5 => .md5 []
  | .sha256 => .sha256 []
  | .blake3 => .blake3 []

/-! ### Checksum manifest (`generate_checksum_file` / `verify_checksum_file`,
checksums.rs lines 311-365)

Text is modelled as `List Char`; `Text` values are built from the Rust
`String`s via `String.toList`. -/

/-- Text, as a list of characters. -/
abbrev Text := List Char

/-- The `Display` rendering of a `ChecksumAlgorithm` (checksums.rs lines
25-34). -/
def ChecksumAlgorithm.render : ChecksumAlgorithm → String
  | .crc32 => "crc32"
  | .md5 => "md5"
  | .sha256 => "sha256"
  | .blake3 => "blake3"

/-- `generate_checksum_file` from `checksums.rs`: two `;` header comment
lines, a blank line, then one `<hex> <relative-path>` line per record. -/
def generate_checksum_file (file_checksums : List (String × ChecksumValue))
    (algorithm : ChecksumAlgorithm) : Text :=
  ("; Checksum file generated by BackUP\n".toList
    ++ ("; Algorithm: " ++ algorithm.render ++ "\n").toList
    ++ "\n".toList)
  ++ (file_checksums.map fun rc =>
        rc.2.hex.toList ++ ' ' :: rc.1.toList ++ ['\n']).flatten

/-- Split text at every newline character (the separators are consumed;
a text with `k` newlines yields `k + 1` pieces). -/
def splitOnNl : Text → List Text
  | [] => [[]]
  | c :: rest =>
    if c = '\n' then [] :: splitOnNl rest
    else
      match splitOnNl rest with
      | [] => [[c]]
      | p :: ps => (c :: p) :: ps

/-- Strip one trailing carriage return, as `str::lines` does on
newline-terminated lines. -/
def stripCr (l : Text) : Text :=
  if l.getLast? = some '\r' then l.dropLast else l

/-- Postprocessing of `splitOnNl` into `str::lines` semantics: every piece
but the last was newline-terminated and gets its trailing `\r` stripped;
the last piece is dropped when empty (trailing newline) and kept verbatim
otherwise. -/
def rustLinesAux : List Text → List Text
  | [] => []
  | [last] => if last = [] then [] else [last]
  | l :: rest => stripCr l :: rustLinesAux rest

/-- Rust `str::lines`. -/
def rustLines (s : Text) : List Text := rustLinesAux (splitOnNl s)

/-- Rust `char::is_whitespace`: the Unicode `White_Space` property
(U+0009-U+000D, U+0020, U+0085, U+00A0, U+1680, U+2000-U+200A, U+2028,
U+2029, U+202F, U+205F, U+3000). -/
def rustIsWhitespace (c : Char) : Bool :=
  (0x09 ≤ c.toNat && c.toNat ≤ 0x0D) || c.toNat = 0x20 || c.toNat = 0x85 ||
  c.toNat = 0xA0 || c.toNat = 0x1680 ||
  (0x2000 ≤ c.toNat && c.toNat ≤ 0x200A) ||
  c.toNat = 0x2028 || c.toNat = 0x2029 || c.toNat = 0x202F ||
  c.toNat = 0x205F || c.toNat = 0x3000

/-- Rust `str::trim` (Unicode whitespace stripped from both ends). -/
def trimText (l : Text) : Text :=
  ((l.dropWhile rustIsWhitespace).reverse.dropWhile rustIsWhitespace).reverse

/-- Rust `str::splitn(2, ' ')`: at most two pieces, split at the first
space. -/
def splitn2Space : Text → List Text
  | [] => [[]]
  | c :: rest =>
    if c = ' ' then [[], rest]
    else
      match splitn2Space rest with
      | [] => [[c]]
      | p :: ps => (c :: p) :: ps

/-- The per-line loop of `verify_checksum_file` (checksums.rs lines
338-362). -/
def verifyLines (f : String → Except EngineError ChecksumValue) :
    List Text → Except EngineError (List (String × ChecksumValue × ChecksumValue × Bool))
  | [] => .ok []
  | line :: rest =>
    let line := trimText line
    if line.isEmpty || line.head? == some ';' then
      verifyLines f rest
    else
      match splitn2Space line with
      | [expectedHex, relPath] =>
        match f (String.mk relPath) with
        | .error e => .error e
        | .ok actual =>
          let ms := actual.hex.toList == expectedHex
          let expected : ChecksumValue := ⟨actual.algorithm, String.mk expectedHex⟩
          match verifyLines f rest with
          | .error e => .error e
          | .ok results => .ok ((String.mk relPath, expected, actual, ms) :: results)
      | _ => verifyLines f rest

/-- `verify_checksum_file` from `checksums.rs`; `f` is the
`file_get_checksum` closure. -/
def verify_checksum_file (checksum_content : Text)
    (f : String → Except EngineError ChecksumValue) :
    Except EngineError (List (String × ChecksumValue × ChecksumValue × Bool)) :=
  verifyLines f (rustLines checksum_content)

/-! ### Concrete sample values used by witnesses and counterexamples -/

/-- A 5-byte regular file item, as enumeration would produce it. -/
def sampleFile : FileItem :=
  mkEnumItem ["src"] ["dst"] [] "a.txt" false 5

/-- A sample job over `sampleFile`, as `create_job` + `plan_job` would
leave it: Pending, zero counters. -/
def sampleJob : TransferJob :=
  { mode := .copy
    source_path := ["src"]
    destination_path := ["dst"]
    overwrite_policy := .overwrite
    files := [sampleFile]
    state := .pending
    error := none
    total_bytes_to_copy := 5
    total_bytes_copied := 0
    current_file_index := none
    created_at := 0
    start_time := none
    end_time := none
    metadata := ⟨none⟩
    checksum_algorithm := none
    verify_after_copy := false }

/-- A `ParentEnv` in which the parent directory already exists. -/
def sampleParentEnv : ParentEnv := ⟨.ok true, .ok ()⟩

/-- A `CopyEnv` in which every step succeeds and 5 bytes are copied. -/
def sampleCopyEnv : CopyEnv :=
  ⟨sampleParentEnv, .ok (), .ok none, .ok (), .ok 5⟩

/-- A `VerifyEnv` in which source and destination digests differ. -/
def sampleMismatchVerifyEnv : VerifyEnv :=
  ⟨.ok ⟨.sha256, "aa"⟩, .ok ⟨.sha256, "bb"⟩⟩

/-- An `ItemEnv` for a fresh destination with a successful copy and a
mismatching verification. -/
def sampleItemEnv : ItemEnv :=
  ⟨false, .error ⟨.notFound, some 2, "nf"⟩, sampleParentEnv, sampleCopyEnv,
   sampleMismatchVerifyEnv⟩

/-- A `RunEnv` applying `sampleItemEnv` at every index. -/
def sampleRunEnv : RunEnv := ⟨fun _ => sampleItemEnv, 10, 20⟩

/-- A `CopyEnv` whose streaming copy fails on the write side with a
permission error. -/
def sampleFailCopyEnv : CopyEnv :=
  ⟨sampleParentEnv, .ok (), .ok none, .ok (),
   .error (Side.write, ⟨.permissionDenied, some 28, "denied"⟩)⟩

/-- An `ItemEnv` for a fresh destination whose copy fails. -/
def sampleFailItemEnv : ItemEnv :=
  ⟨false, .error ⟨.notFound, some 2, "nf"⟩, sampleParentEnv,
   sampleFailCopyEnv, sampleMismatchVerifyEnv⟩

/-- A `RunEnv` applying `sampleFailItemEnv` at every index. -/
def sampleFailRunEnv : RunEnv := ⟨fun _ => sampleFailItemEnv, 10, 20⟩

/-- A manifest lookup returning fixed digests for two known paths. -/
def sampleManifestLookup : String → Except EngineError ChecksumValue :=
  fun p =>
    if p = "file1.txt" then .ok (ChecksumValue.mk .sha256 "abc123")
    else if p = "sub/file2.txt" then .ok (ChecksumValue.mk .sha256 "def456")
    else .error (.sourceNotFound [])

/-- `sampleJob` with verify-after-copy enabled using SHA-256. -/
def sampleVerifyJob : TransferJob :=
  { sampleJob with
      checksum_algorithm := some ChecksumAlgorithm.sha256
      verify_after_copy := true }

/-! ## Theorems -/

/-- C1: the transfer-policy decision is a pure function of (destination
exists, configured policy, source size, destination size) matching the
decision table: for a non-directory item a missing destination yields copy
under every policy; with an existing destination, Overwrite decides copy,
Skip and Ask decide skip, and SmartUpdate decides copy iff the source and
destination sizes differ; directory items always decide copy. -/
theorem should_copy_file_decision_table (dstMeta : Except IoErr Nat)
    (file : FileItem) (policy : OverwritePolicy) :
    (file.is_dir = true →
      ∀ de, should_copy_file de dstMeta file policy = true) ∧
    (file.is_dir = false →
      should_copy_file false dstMeta file policy = true) ∧
    (file.is_dir = false → ∀ dstSize,
      should_copy_file true (.ok dstSize) file policy =
        match policy with
        | .skip => false
        | .overwrite => true
        | .ask => false
        | .smartUpdate => decide (dstSize ≠ file.file_size)) := by
  refine ⟨fun h de => ?_, fun h => ?_, fun h dstSize => ?_⟩ <;>
    cases policy <;> simp [should_copy_file, h]

/-- Witness for C1 at concrete inputs: a 5-byte non-directory source with
an existing 5-byte destination is skipped under SmartUpdate. -/
theorem should_copy_file_decision_table_witness :
    (sampleFile.is_dir = false) ∧
    should_copy_file true (.ok 5) sampleFile .smartUpdate = false := by
  refine ⟨rfl, ?_⟩
  have h := (should_copy_file_decision_table (.ok 5) sampleFile
    .smartUpdate).2.2 rfl 5
  simpa using h

/-- C3: calling `run_job` on a job whose state is not Pending returns an
error and leaves the job completely unmodified — in particular a second
call after a successful first call (which ends in Completed state) errors
without mutating anything. -/
theorem run_job_not_pending_rejected (env : RunEnv) (job : TransferJob)
    (h : job.state ≠ JobState.pending) :
    run_job env job =
      (.error (.invalidPath job.source_path
        ("Job must be in Pending state to run; current state: "
          ++ job.state.debugRepr)), job) := by
  simp [run_job, h]

/-- Witness for C3: a second `run_job` call on `sampleJob` after a first
successful one returns an error and returns the job unchanged. -/
theorem run_job_not_pending_rejected_witness :
    (run_job sampleRunEnv sampleJob).2.state ≠ JobState.pending ∧
    run_job sampleRunEnv ((run_job sampleRunEnv sampleJob).2) =
      (.error (.invalidPath ["src"]
        ("Job must be in Pending state to run; current state: Completed")),
       (run_job sampleRunEnv sampleJob).2) := by
  have h : (run_job sampleRunEnv sampleJob).2.state ≠ JobState.pending := by
    decide
  refine ⟨h, ?_⟩
  have := run_job_not_pending_rejected sampleRunEnv
    ((run_job sampleRunEnv sampleJob).2) h
  simpa [show (run_job sampleRunEnv sampleJob).2.state = .completed by decide,
    show (run_job sampleRunEnv sampleJob).2.source_path = ["src"] by decide,
    JobState.debugRepr] using this

/-- C9: `run_job` is independent of the job's `mode` field — running the
job with mode Move produces exactly the same return value, item outcomes
and counters as the otherwise-identical job with mode Copy (only the
preserved `mode` field itself differs), and no deletion-of-source step
exists anywhere in the loop. -/
theorem run_job_move_equals_copy (env : RunEnv) (job : TransferJob) :
    run_job env { job with mode := Mode.move } =
      ((run_job env { job with mode := Mode.copy }).1,
       { (run_job env { job with mode := Mode.copy }).2 with
          mode := Mode.move }) := by
  by_cases h : job.state = JobState.pending <;> simp [run_job, h]

/-! ### Helper lemmas about the execution loop -/

/-- `verify_file_item` mutates only the `metadata` block of the item. -/
theorem verify_file_item_fields (env : VerifyEnv) (f : FileItem) :
    ((verify_file_item env f).2).state = f.state ∧
    ((verify_file_item env f).2).bytes_copied = f.bytes_copied ∧
    ((verify_file_item env f).2).error_code = f.error_code ∧
    ((verify_file_item env f).2).error_message = f.error_message ∧
    ((verify_file_item env f).2).is_dir = f.is_dir := by
  cases hd : f.is_dir <;>
    cases hsc : f.metadata.source_checksum <;>
      cases hsrc : env.src <;>
        cases hdst : env.dst <;>
          simp [verify_file_item, hd, hsc, hsrc, hdst]

/-- `applyVerification` preserves every field except `error_message` and
the metadata block. -/
theorem applyVerification_fields (e : VerifyEnv)
    (alg : Option ChecksumAlgorithm) (v : Bool) (f1 : FileItem) :
    ((applyVerification e alg v f1)).state = f1.state ∧
    ((applyVerification e alg v f1)).bytes_copied = f1.bytes_copied ∧
    ((applyVerification e alg v f1)).error_code = f1.error_code ∧
    ((applyVerification e alg v f1)).is_dir = f1.is_dir := by
  have hfs := verify_file_item_fields e f1
  rcases hq : verify_file_item e f1 with ⟨r, f'⟩
  rw [hq] at hfs
  cases alg <;> cases v <;> cases r <;>
    simp_all [applyVerification] <;> split <;> simp_all

/-- `applyVerification` sets `error_message` only when verification was
actually enabled. -/
theorem applyVerification_error_message (e : VerifyEnv)
    (alg : Option ChecksumAlgorithm) (v : Bool) (f1 : FileItem)
    (h : ((applyVerification e alg v f1)).error_message ≠ none) :
    f1.error_message ≠ none ∨ (alg.isSome && v) = true := by
  have hfs := verify_file_item_fields e f1
  rcases hq : verify_file_item e f1 with ⟨r, f'⟩
  rw [hq] at hfs
  cases alg <;> cases v <;> cases r <;>
    simp_all [applyVerification]


/-- The per-item byte contribution counted by C2's aggregate equation:
`bytes_copied` for items in Done state, 0 otherwise. -/
def doneBytes (f : FileItem) : Nat :=
  if f.state = .done then f.bytes_copied else 0

/-- The per-item byte contribution counted by C10's aggregate equation:
`bytes_copied` for non-directory items in Done state, 0 otherwise. -/
def doneFileBytes (f : FileItem) : Nat :=
  if f.state = .done ∧ f.is_dir = false then f.bytes_copied else 0

/-- Every branch of the loop body leaves the item in a terminal state. -/
theorem processItem_terminal (e : ItemEnv) (p : OverwritePolicy)
    (a : Option ChecksumAlgorithm) (v : Bool) (f : FileItem) :
    ((processItem e p a v f).1).state.is_terminal = true := by
  simp only [processItem]
  repeat' split
  all_goals
    simp_all [FileState.is_terminal, (applyVerification_fields e.verifyEnv a v _).1]

/-- If the item starts with `bytes_copied = 0`, the loop body's byte
contribution equals `doneBytes` of the final item. -/
theorem processItem_doneBytes (e : ItemEnv) (p : OverwritePolicy)
    (a : Option ChecksumAlgorithm) (v : Bool) (f : FileItem)
    (h : f.bytes_copied = 0) :
    doneBytes ((processItem e p a v f).1) = (processItem e p a v f).2 := by
  simp only [processItem]
  repeat' split
  all_goals
    simp_all [doneBytes, (applyVerification_fields e.verifyEnv a v _).1,
      (applyVerification_fields e.verifyEnv a v _).2.1]

/-- The loop body's byte contribution equals `doneFileBytes` of the final
item, unconditionally. -/
theorem processItem_doneFileBytes (e : ItemEnv) (p : OverwritePolicy)
    (a : Option ChecksumAlgorithm) (v : Bool) (f : FileItem) :
    doneFileBytes ((processItem e p a v f).1) = (processItem e p a v f).2 := by
  simp only [processItem]
  repeat' split
  all_goals
    simp_all [doneFileBytes, (applyVerification_fields e.verifyEnv a v _).1,
      (applyVerification_fields e.verifyEnv a v _).2.1,
      (applyVerification_fields e.verifyEnv a v _).2.2.2]

/-- The loop keeps the item count. -/
theorem run_files_length (env : Nat → ItemEnv) (p : OverwritePolicy)
    (a : Option ChecksumAlgorithm) (v : Bool) (files : List FileItem)
    (i : Nat) :
    (run_files env p a v i files).1.length = files.length := by
  induction files generalizing i with
  | nil => rfl
  | cons f rest ih => simp [run_files, ih]

/-- Item `j` of the loop's output is the loop body applied to item `j` of
the input, under the environment for index `i + j`. -/
theorem run_files_getElem? (env : Nat → ItemEnv) (p : OverwritePolicy)
    (a : Option ChecksumAlgorithm) (v : Bool) (files : List FileItem)
    (i j : Nat) :
    (run_files env p a v i files).1[j]? =
      (files[j]?).map (fun f => (processItem (env (i + j)) p a v f).1) := by
  induction files generalizing i j with
  | nil => simp [run_files]
  | cons f rest ih =>
    cases j with
    | zero => simp [run_files]
    | succ j' =>
      simp only [run_files, List.getElem?_cons_succ]
      have := ih (i + 1) j'
      simpa [Nat.add_assoc, Nat.add_comm 1 j'] using this

/-- Every item output by the loop is in a terminal state. -/
theorem run_files_terminal (env : Nat → ItemEnv) (p : OverwritePolicy)
    (a : Option ChecksumAlgorithm) (v : Bool) (files : List FileItem)
    (i : Nat) :
    ∀ f' ∈ (run_files env p a v i files).1, f'.state.is_terminal = true := by
  induction files generalizing i with
  | nil => simp [run_files]
  | cons f rest ih =>
    intro f' hf'
    simp only [run_files, List.mem_cons] at hf'
    rcases hf' with h | h
    · subst h; exact processItem_terminal _ _ _ _ _
    · exact ih (i + 1) f' h

/-- When every input item starts with `bytes_copied = 0`, the loop's byte
total is the sum of `doneBytes` over its output. -/
theorem run_files_total_doneBytes (env : Nat → ItemEnv)
    (p : OverwritePolicy) (a : Option ChecksumAlgorithm) (v : Bool)
    (files : List FileItem) (i : Nat)
    (hb : ∀ f ∈ files, f.bytes_copied = 0) :
    ((run_files env p a v i files).1.map doneBytes).sum =
      (run_files env p a v i files).2 := by
  induction files generalizing i with
  | nil => simp [run_files]
  | cons f rest ih =>
    have h0 : f.bytes_copied = 0 := hb f (by simp)
    have hrest : ∀ g ∈ rest, g.bytes_copied = 0 :=
      fun g hg => hb g (by simp [hg])
    simp only [run_files, List.map_cons, List.sum_cons]
    rw [processItem_doneBytes _ _ _ _ _ h0, ih (i + 1) hrest]

/-- The loop's byte total is the sum of `doneFileBytes` over its output,
unconditionally. -/
theorem run_files_total_doneFileBytes (env : Nat → ItemEnv)
    (p : OverwritePolicy) (a : Option ChecksumAlgorithm) (v : Bool)
    (files : List FileItem) (i : Nat) :
    ((run_files env p a v i files).1.map doneFileBytes).sum =
      (run_files env p a v i files).2 := by
  induction files generalizing i with
  | nil => simp [run_files]
  | cons f rest ih =>
    simp only [run_files, List.map_cons, List.sum_cons]
    rw [processItem_doneFileBytes, ih (i + 1)]

/-- C2: `run_job` on a Pending job (with the zero counters `create_job`
and `plan_job` establish) returns Ok; the job ends Completed with
`end_time` set and `current_file_index` cleared, every item is in a
terminal state, and `total_bytes_copied` equals the sum of `bytes_copied`
over items whose final state is Done — item failures never abort the
loop. -/
theorem run_job_pending_completes (env : RunEnv) (job : TransferJob)
    (hp : job.state = JobState.pending)
    (hb : ∀ f ∈ job.files, f.bytes_copied = 0)
    (ht : job.total_bytes_copied = 0) :
    (run_job env job).1 = .ok () ∧
    (run_job env job).2.state = .completed ∧
    (run_job env job).2.end_time = some env.endTime ∧
    (run_job env job).2.current_file_index = none ∧
    (∀ f ∈ (run_job env job).2.files, f.state.is_terminal = true) ∧
    (run_job env job).2.total_bytes_copied =
      ((run_job env job).2.files.map doneBytes).sum := by
  simp only [run_job, hp, ne_eq, not_true_eq_false, if_false]
  refine ⟨trivial, trivial, trivial, trivial, ?_, ?_⟩
  · exact run_files_terminal env.item job.overwrite_policy
      job.checksum_algorithm job.verify_after_copy job.files 0
  · rw [run_files_total_doneBytes env.item job.overwrite_policy
      job.checksum_algorithm job.verify_after_copy job.files 0 hb, ht,
      Nat.zero_add]

/-- Witness for C2 at `sampleJob` under `sampleRunEnv`. -/
theorem run_job_pending_completes_witness :
    (run_job sampleRunEnv sampleJob).1 = .ok () ∧
    (run_job sampleRunEnv sampleJob).2.state = .completed ∧
    (run_job sampleRunEnv sampleJob).2.total_bytes_copied =
      ((run_job sampleRunEnv sampleJob).2.files.map doneBytes).sum := by
  have h := run_job_pending_completes sampleRunEnv sampleJob rfl
    (by intro f hf; simp only [sampleJob, List.mem_singleton] at hf;
        simp [hf, sampleFile, mkEnumItem]) rfl
  exact ⟨h.1, h.2.1, h.2.2.2.2.2⟩

/-- C10: under `run_job`, a non-directory item whose copy attempt fails
ends Failed with `bytes_copied = 0`, and the job's running byte total is
incremented only by items that end Done as non-directory files (the sum of
`doneFileBytes`). -/
theorem run_job_failed_copy_isolation (env : RunEnv) (job : TransferJob)
    (hp : job.state = JobState.pending)
    (hb : ∀ f ∈ job.files, f.bytes_copied = 0) :
    (∀ j f, job.files[j]? = some f → f.is_dir = false →
      should_copy_file (env.item j).destExists (env.item j).dstMeta f
        job.overwrite_policy = true →
      ∀ err, copy_file_with_metadata (env.item j).copyEnv f.source_path
        f.destination_path = .error err →
      (run_job env job).2.files[j]? =
        some { f with
                state := .failed
                error_code := err.raw_os_error
                error_message := some err.render } ∧
      ({ f with
          state := .failed
          error_code := err.raw_os_error
          error_message := some err.render } : FileItem).bytes_copied = 0) ∧
    (run_job env job).2.total_bytes_copied =
      job.total_bytes_copied +
        ((run_job env job).2.files.map doneFileBytes).sum := by
  simp only [run_job, hp, ne_eq, not_true_eq_false, if_false]
  constructor
  · intro j f hj hdir hsc err hcopy
    have hget := run_files_getElem? env.item job.overwrite_policy
      job.checksum_algorithm job.verify_after_copy job.files 0 j
    rw [Nat.zero_add, hj] at hget
    have hmem : f ∈ job.files := List.getElem?_mem hj
    have hb0 : f.bytes_copied = 0 := hb f hmem
    constructor
    · rw [hget]
      simp [processItem, hsc, hdir, hcopy]
    · simpa using hb0
  · rw [run_files_total_doneFileBytes]

/-- Witness for C10: a one-file job whose copy fails with a write error
ends with the item Failed and zero bytes accounted. -/
theorem run_job_failed_copy_isolation_witness :
    (run_job sampleFailRunEnv sampleJob).2.files[0]? =
      some { sampleFile with
              state := .failed
              error_code := some 28
              error_message := some "Failed to write file: dst/a.txt" } ∧
    (run_job sampleFailRunEnv sampleJob).2.total_bytes_copied = 0 := by
  have h := run_job_failed_copy_isolation sampleFailRunEnv sampleJob rfl
    (by intro f hf; simp only [sampleJob, List.mem_singleton] at hf;
        simp [hf, sampleFile, mkEnumItem])
  have h0 := (h.1 0 sampleFile (by rfl) (by rfl) (by decide)
    (.writeError ["dst", "a.txt"] ⟨.permissionDenied, some 28, "denied"⟩)
    (by rfl)).1
  refine ⟨?_, ?_⟩
  · simpa [EngineError.raw_os_error, EngineError.render,
      FsPath.render] using h0
  · rw [h.2]; decide

/-! ### Error-field invariants (claim C4) -/

/-- The error-field invariant of enumeration output: error fields are set
only on Failed items. -/
def enumErrInv (f : FileItem) : Prop :=
  (f.error_code ≠ none ∨ f.error_message ≠ none) → f.state = .failed

/-- `mkEnumItem` produces clean error fields. -/
theorem mkEnumItem_clean (s d r : FsPath) (n : String) (b : Bool) (sz : Nat) :
    (mkEnumItem s d r n b sz).error_code = none ∧
    (mkEnumItem s d r n b sz).error_message = none :=
  ⟨rfl, rfl⟩

/-- `markLast` preserves the enumeration error-field invariant (the item
it marks becomes Failed). -/
theorem markLast_enumErrInv (items : List FileItem) (p : FsPath)
    (err : EngineError) (h : ∀ f ∈ items, enumErrInv f) :
    ∀ f ∈ markLast items p err, enumErrInv f := by
  intro f hf
  unfold markLast at hf
  rcases hl : items.getLast? with _ | last <;> rw [hl] at hf <;>
    simp only at hf
  · exact h f hf
  · by_cases hcond : (last.is_dir && last.source_path == p) = true
    · rw [if_pos hcond] at hf
      rcases List.mem_append.1 hf with h1 | h1
      · exact h f (List.dropLast_subset items h1)
      · rcases List.mem_singleton.1 h1 with rfl
        intro _; rfl
    · rw [if_neg hcond] at hf
      exact h f hf

/-- Appending a freshly enumerated item preserves the enumeration
error-field invariant. -/
theorem append_mkEnumItem_inv (s d r : FsPath) (nm : String) (b : Bool)
    (sz : Nat) (items : List FileItem) (h : ∀ f ∈ items, enumErrInv f) :
    ∀ f ∈ items ++ [mkEnumItem s d r nm b sz], enumErrInv f := by
  intro f hf
  rcases List.mem_append.1 hf with h1 | h1
  · exact h f h1
  · rcases List.mem_singleton.1 h1 with rfl
    intro hc
    rcases hc with hc | hc <;> simp [mkEnumItem] at hc

/-- The error-recovery wrapper preserves the enumeration error-field
invariant. -/
theorem applyMarkIfErr_enumErrInv (r : List FileItem × Option EngineError)
    (p : FsPath) (h : ∀ f ∈ r.1, enumErrInv f) :
    ∀ f ∈ applyMarkIfErr r p, enumErrInv f := by
  rcases r with ⟨its, _ | err⟩
  · exact h
  · exact markLast_enumErrInv _ _ _ h

/-- Every item accumulated by `recurse` satisfies the enumeration
error-field invariant. -/
theorem recurseEntries_enumErrInv (srcRoot dstRoot : FsPath)
    (nodes : List FsNode) (rel : FsPath) (items : List FileItem) :
    (∀ f ∈ items, enumErrInv f) →
    ∀ f ∈ (recurseEntries srcRoot dstRoot nodes rel items).1, enumErrInv f := by
  induction nodes, rel, items using recurseEntries.induct srcRoot dstRoot
  case case1 rel items =>
    intro h
    simpa [recurseEntries] using h
  case case2 e tail rel items =>
    intro h
    simpa [recurseEntries] using h
  case case3 name size rest rel items ih =>
    intro h
    simp only [recurseEntries]
    exact ih (append_mkEnumItem_inv _ _ _ _ _ _ _ h)
  case case4 name e rest rel items ih =>
    intro h
    simp only [recurseEntries]
    exact ih (applyMarkIfErr_enumErrInv _ _
      (append_mkEnumItem_inv _ _ _ _ _ _ _ h))
  case case5 name sub rest rel items ih1 ih2 =>
    intro h
    simp only [recurseEntries]
    exact ih2 (applyMarkIfErr_enumErrInv _ _
      (ih1 (append_mkEnumItem_inv _ _ _ _ _ _ _ h)))

/-- The error-field invariant of execution output, indexed by whether
verification was enabled. -/
def execErrInv (verifyOn : Bool) (g : FileItem) : Prop :=
  (g.error_code ≠ none → g.state = .failed) ∧
  (g.error_message ≠ none →
    g.state = .failed ∨ (verifyOn = true ∧ g.state = .done))

/-- One loop iteration on a clean-error-field item establishes the
execution error-field invariant. -/
theorem processItem_execErrInv (e : ItemEnv) (p : OverwritePolicy)
    (a : Option ChecksumAlgorithm) (v : Bool) (f : FileItem)
    (hc : f.error_code = none) (hm : f.error_message = none) :
    execErrInv (a.isSome && v) ((processItem e p a v f).1) := by
  simp only [processItem]
  repeat' split
  · exact ⟨by simp [hc], by simp [hm]⟩
  · exact ⟨by simp [hc], by simp [hm]⟩
  · exact ⟨fun _ => rfl, fun _ => Or.inl rfl⟩
  · rename_i n heq
    constructor
    · intro hgc
      have := (applyVerification_fields e.verifyEnv a v
        {f with bytes_copied := n, state := .done}).2.2.1
      rw [this] at hgc
      simp [hc] at hgc
    · intro hgm
      have hst := (applyVerification_fields e.verifyEnv a v
        {f with bytes_copied := n, state := .done}).1
      have := applyVerification_error_message e.verifyEnv a v
        {f with bytes_copied := n, state := .done} hgm
      rcases this with h1 | h1
      · simp [hm] at h1
      · exact Or.inr ⟨h1, hst⟩
  · exact ⟨fun _ => rfl, fun _ => Or.inl rfl⟩

/-- The loop establishes the execution error-field invariant on every
output item, given clean input error fields. -/
theorem run_files_execErrInv (env : Nat → ItemEnv) (p : OverwritePolicy)
    (a : Option ChecksumAlgorithm) (v : Bool) (files : List FileItem)
    (i : Nat)
    (h : ∀ f ∈ files, f.error_code = none ∧ f.error_message = none) :
    ∀ g ∈ (run_files env p a v i files).1, execErrInv (a.isSome && v) g := by
  induction files generalizing i with
  | nil => simp [run_files]
  | cons f rest ih =>
    intro g hg
    simp only [run_files, List.mem_cons] at hg
    rcases hg with h1 | h1
    · subst h1
      exact processItem_execErrInv _ _ _ _ _ (h f (by simp)).1 (h f (by simp)).2
    · exact ih (i + 1) (fun f' hf' => h f' (by simp [hf'])) g h1

/-- C4 counterexample: with verification enabled and a digest mismatch,
the copied item ends Done with `error_message` set (job.rs lines 162-177),
refuting "`error_message` is Some only when state is Failed". -/
theorem error_fields_counterexample :
    ((run_job sampleRunEnv sampleVerifyJob).2.files.map fun g =>
      (g.state, g.error_message, g.error_code)) =
      [(FileState.done,
        some "Checksum verification failed: source and destination differ",
        none)] := by
  rfl

/-- C4 (amended): `error_code` is Some only on Failed items.
`error_message` is Some only on Failed items — except that an item in Done
state may carry an `error_message` when the job had verification enabled
(a recorded checksum mismatch or verification error).  The unamended
invariant holds for all enumeration output; the execution half holds for
every item that enters `run_job` with clean error fields. -/
theorem error_fields_invariant_amended :
    (∀ root srcRoot dstRoot items,
      enumerate_tree root srcRoot dstRoot = .ok items →
      ∀ f ∈ items,
        (f.error_code ≠ none ∨ f.error_message ≠ none) → f.state = .failed) ∧
    (∀ env job,
      (∀ f ∈ job.files, f.error_code = none ∧ f.error_message = none) →
      ∀ g ∈ (run_job env job).2.files,
        (g.error_code ≠ none → g.state = .failed) ∧
        (g.error_message ≠ none →
          g.state = .failed ∨
            ((job.checksum_algorithm.isSome && job.verify_after_copy) = true ∧
              g.state = .done))) := by
  constructor
  · intro root srcRoot dstRoot items hok
    unfold enumerate_tree at hok
    rcases root with e | entries
    · exact absurd hok (by simp)
    · simp only at hok
      rcases hr : (recurseEntries srcRoot dstRoot entries [] []).2 with _ | err
      · rw [hr] at hok
        simp only [Except.ok.injEq] at hok
        subst hok
        exact recurseEntries_enumErrInv srcRoot dstRoot entries [] []
          (by simp)
      · rw [hr] at hok; exact absurd hok (by simp)
  · intro env job h g hg
    by_cases hp : job.state = JobState.pending
    · simp only [run_job, hp, ne_eq, not_true_eq_false, if_false] at hg
      exact run_files_execErrInv env.item job.overwrite_policy
        job.checksum_algorithm job.verify_after_copy job.files 0 h g hg
    · simp only [run_job, hp, ne_eq, not_false_eq_true, if_true] at hg
      exact ⟨fun hc => absurd hc (by simp [(h g hg).1]),
        fun hm => absurd hm (by simp [(h g hg).2])⟩

/-- Witness for C4's amended theorem at the concrete mismatch run. -/
theorem error_fields_invariant_amended_witness :
    (enumerate_tree (.ok [FsNode.fileEnt "a.txt" 5]) ["src"] ["dst"] =
      .ok [sampleFile]) ∧
    ((sampleFile.error_code ≠ none ∨ sampleFile.error_message ≠ none) →
      sampleFile.state = .failed) ∧
    (∀ g ∈ (run_job sampleRunEnv sampleVerifyJob).2.files,
      (g.error_code ≠ none → g.state = .failed) ∧
      (g.error_message ≠ none →
        g.state = .failed ∨
          ((sampleVerifyJob.checksum_algorithm.isSome &&
            sampleVerifyJob.verify_after_copy) = true ∧
            g.state = .done))) := by
  have hen : enumerate_tree (.ok [FsNode.fileEnt "a.txt" 5]) ["src"] ["dst"] =
      .ok [sampleFile] := by
    simp [enumerate_tree, recurseEntries, sampleFile]
  refine ⟨hen, ?_, ?_⟩
  · exact error_fields_invariant_amended.1 (.ok [FsNode.fileEnt "a.txt" 5])
      ["src"] ["dst"] [sampleFile] hen sampleFile (by simp)
  · exact error_fields_invariant_amended.2 sampleRunEnv sampleVerifyJob
      (by intro f hf
          simp only [sampleVerifyJob, sampleJob, List.mem_singleton] at hf
          simp [hf, sampleFile, mkEnumItem])

/-! ### Enumeration failure handling (claim C5) -/

/-- C5 counterexample: in the source tree `src/sub` where listing `sub`
yields file `a` and then fails at the second entry, `enumerate_tree`
returns Ok with `sub`'s own item still Pending — not Failed — and with
`sub`'s descendant `a` present in the output (the `markLast` recovery at
fs_ops.rs lines 83-90 misses because the last accumulated item is `a`,
not `sub`). -/
theorem enumeration_subdir_failure_counterexample :
    enumerate_tree
      (.ok [.dirOk "sub" [.fileEnt "a" 1, .errEnt ⟨.other, some 5, "boom"⟩]])
      ["src"] ["dst"] =
      .ok [mkEnumItem ["src"] ["dst"] [] "sub" true 0,
           mkEnumItem ["src"] ["dst"] ["sub"] "a" false 1] ∧
    (mkEnumItem ["src"] ["dst"] [] "sub" true 0).state ≠ FileState.failed ∧
    (mkEnumItem ["src"] ["dst"] ["sub"] "a" false 1).source_path =
      ["src", "sub", "a"] := by
  refine ⟨?_, by simp [mkEnumItem], by simp [mkEnumItem]⟩
  simp [enumerate_tree, recurseEntries, applyMarkIfErr, markLast, mkEnumItem]

/-- C5 (amended): a failure to read the root directory is returned as a
fatal error with no items produced.  A failure to *open* a subdirectory's
listing (`read_dir` fails) is recorded as Failed on that subdirectory's
own item, traversal continues with its siblings, and no descendants of it
are produced.  (A failure *during* a subdirectory's listing iteration,
after some entries were read, instead leaves the already-produced
descendants in the list and the subdirectory item unmarked — see the
counterexample.) -/
theorem enumeration_failure_handling_amended :
    (∀ (e : IoErr) (srcRoot dstRoot : FsPath),
      enumerate_tree (.error e) srcRoot dstRoot =
        .error (.enumerationFailed srcRoot e)) ∧
    (∀ (srcRoot dstRoot : FsPath) (name : String) (e : IoErr)
        (rest : List FsNode) (rel : FsPath) (items : List FileItem),
      recurseEntries srcRoot dstRoot (.dirFail name e :: rest) rel items =
        recurseEntries srcRoot dstRoot rest rel
          (items ++
            [{ mkEnumItem srcRoot dstRoot rel name true 0 with
                state := .failed
                error_code := e.code
                error_message := some ("Failed to enumerate directory: "
                  ++ FsPath.render (srcRoot ++ rel ++ [name])) }])) := by
  constructor
  · intro e srcRoot dstRoot
    rfl
  · intro srcRoot dstRoot name e rest rel items
    simp only [recurseEntries, applyMarkIfErr, markLast,
      List.getLast?_concat, List.dropLast_concat]
    simp [mkEnumItem, EngineError.raw_os_error, EngineError.render]

/-! ### Copy-error side reporting (claim C6) -/

/-- C6 counterexample: the streaming copy fails on the WRITE side (disk
full on the destination) but, because the error kind is not
`PermissionDenied`, `copy_file_with_metadata` reports a `ReadError` on the
source — the returned error kind does not identify the failing side. -/
theorem copy_error_side_counterexample :
    copy_file_with_metadata
      ⟨⟨.ok true, .ok ()⟩, .ok (), .ok none, .ok (),
        .error (Side.write, ⟨.other, some 28, "No space left on device"⟩)⟩
      ["src", "f"] ["dst", "f"] =
      .error (.readError ["src", "f"]
        ⟨.other, some 28, "No space left on device"⟩) := by
  rfl

/-- C6 (amended): source open/metadata failures are reported as
`ReadError` and destination-create failures as `WriteError` (these do
identify the failing side); a failure during the streaming copy is
classified by its error kind alone — `PermissionDenied` as `WriteError`
on the destination, any other kind as `ReadError` on the source,
regardless of which side actually failed. -/
theorem copy_error_side_reporting_amended (env : CopyEnv) (src dst : FsPath)
    (hpar : ensure_parent_dir_exists env.parentEnv dst = .ok ()) :
    (∀ e, env.openSrc = .error e →
      copy_file_with_metadata env src dst = .error (.readError src e)) ∧
    (∀ e, env.openSrc = .ok () → env.srcMetadata = .error e →
      copy_file_with_metadata env src dst = .error (.readError src e)) ∧
    (∀ e mt, env.openSrc = .ok () → env.srcMetadata = .ok mt →
      env.createDst = .error e →
      copy_file_with_metadata env src dst = .error (.writeError dst e)) ∧
    (∀ s e mt, env.openSrc = .ok () → env.srcMetadata = .ok mt →
      env.createDst = .ok () → env.ioCopy = .error (s, e) →
      copy_file_with_metadata env src dst =
        .error (if e.kind = .permissionDenied then .writeError dst e
                else .readError src e)) := by
  refine ⟨?_, ?_, ?_, ?_⟩
  · intro e h1
    simp [copy_file_with_metadata, hpar, h1]
  · intro e h1 h2
    simp [copy_file_with_metadata, hpar, h1, h2]
  · intro e mt h1 h2 h3
    simp [copy_file_with_metadata, hpar, h1, h2, h3]
  · intro s e mt h1 h2 h3 h4
    by_cases hk : e.kind = IoKind.permissionDenied <;>
      simp [copy_file_with_metadata, hpar, h1, h2, h3, h4, hk]

/-- Witness for C6's amended theorem: a concrete failing source open is
reported as `ReadError`. -/
theorem copy_error_side_reporting_amended_witness :
    copy_file_with_metadata
      ⟨⟨.ok true, .ok ()⟩, .error ⟨.notFound, some 2, "missing"⟩, .ok none,
        .ok (), .ok 5⟩
      ["src", "f"] ["dst", "f"] =
      .error (.readError ["src", "f"] ⟨.notFound, some 2, "missing"⟩) := by
  exact (copy_error_side_reporting_amended
    ⟨⟨.ok true, .ok ()⟩, .error ⟨.notFound, some 2, "missing"⟩, .ok none,
      .ok (), .ok 5⟩
    ["src", "f"] ["dst", "f"] (by rfl)).1 _ (by rfl)

/-! ### Checksum streaming algebra (claim C7) -/

/-- Updating with the empty chunk is the identity on every hasher. -/
theorem Hasher.update_nil (h : Hasher) : h.update [] = h := by
  cases h <;> simp [Hasher.update]

/-- Incremental update is a homomorphism over byte-sequence
concatenation, for all four hashers. -/
theorem Hasher.update_append (h : Hasher) (xs ys : List Nat) :
    h.update (xs ++ ys) = (h.update xs).update ys := by
  cases h <;> simp [Hasher.update, List.foldl_append]

/-- Folding a chunk sequence into a hasher is the single update with the
concatenation. -/
theorem foldl_update_eq (chunks : List (List Nat)) (h : Hasher) :
    chunks.foldl Hasher.update h = h.update chunks.flatten := by
  induction chunks generalizing h with
  | nil => simp [Hasher.update_nil]
  | cons c cs ih => simp [ih, Hasher.update_append]

/-- C7: for every algorithm, the finalized digest is a function of the
input byte content alone — any two ways of chunking the same byte
sequence through incremental updates finalize to the same digest (and in
particular the same hex string on every run).  The external md5/sha2/
blake3 digest functions are universally quantified via `fs`. -/
theorem checksum_digest_function_of_content (fs : DigestFns)
    (alg : ChecksumAlgorithm) (chunks1 chunks2 : List (List Nat))
    (h : chunks1.flatten = chunks2.flatten) :
    Hasher.finalize fs (chunks1.foldl Hasher.update (create_hasher alg)) =
      Hasher.finalize fs (chunks2.foldl Hasher.update (create_hasher alg)) := by
  rw [foldl_update_eq, foldl_update_eq, h]

/-- Witness for C7: hashing "hel" as one chunk or byte-by-byte gives the
same CRC32 digest. -/
theorem checksum_digest_function_of_content_witness :
    (([[104], [101, 108]] : List (List Nat)).flatten =
      ([[104, 101, 108]] : List (List Nat)).flatten) ∧
    Hasher.finalize ⟨fun _ => "", fun _ => "", fun _ => ""⟩
        (([[104], [101, 108]] : List (List Nat)).foldl Hasher.update
          (create_hasher .crc32)) =
      Hasher.finalize ⟨fun _ => "", fun _ => "", fun _ => ""⟩
        (([[104, 101, 108]] : List (List Nat)).foldl Hasher.update
          (create_hasher .crc32)) :=
  ⟨by decide, checksum_digest_function_of_content _ .crc32 _ _ (by decide)⟩

/-! ### Manifest round-trip (claim C8) -/

/-- Splitting distributes over the first newline when the prefix contains
none. -/
theorem splitOnNl_append (xs ys : Text) (h : '\n' ∉ xs) :
    splitOnNl (xs ++ '\n' :: ys) = xs :: splitOnNl ys := by
  induction xs with
  | nil => simp [splitOnNl]
  | cons c cs ih =>
    have hc : ¬c = '\n' := fun hh => h (by simp [hh])
    have h' : '\n' ∉ cs := fun hh => h (by simp [hh])
    simp only [List.cons_append, splitOnNl, if_neg hc, List.append_eq]
    rw [ih h']

/-- `splitOnNl` never returns the empty list. -/
theorem splitOnNl_ne_nil (l : Text) : splitOnNl l ≠ [] := by
  cases l with
  | nil => simp [splitOnNl]
  | cons c cs =>
    simp only [splitOnNl]
    split
    · simp
    · cases h : splitOnNl cs <;> simp

/-- `str::lines` peels off one newline-terminated line that contains no
newline and does not end in a carriage return. -/
theorem rustLines_cons (xs ys : Text) (hx : '\n' ∉ xs)
    (hr : xs.getLast? ≠ some '\r') :
    rustLines (xs ++ '\n' :: ys) = xs :: rustLines ys := by
  unfold rustLines
  rw [splitOnNl_append xs ys hx]
  rcases hs : splitOnNl ys with _ | ⟨p, ps⟩
  · exact absurd hs (splitOnNl_ne_nil ys)
  · simp only [rustLinesAux, stripCr, if_neg hr]

/-- A `dropWhile` whose first element fails the predicate is the
identity. -/
theorem dropWhile_eq_self (p : Char → Bool) (l : Text)
    (h : ∀ c, l.head? = some c → p c = false) : l.dropWhile p = l := by
  cases l with
  | nil => rfl
  | cons c cs =>
    have := h c rfl
    simp [List.dropWhile_cons, this]

/-- `str::trim` is the identity on text whose first and last characters
are not whitespace. -/
theorem trimText_eq_self (l : Text)
    (h1 : ∀ c, l.head? = some c → rustIsWhitespace c = false)
    (h2 : ∀ c, l.getLast? = some c → rustIsWhitespace c = false) :
    trimText l = l := by
  unfold trimText
  rw [dropWhile_eq_self _ l h1]
  rw [dropWhile_eq_self _ l.reverse
    (fun c hc => h2 c (by rwa [List.head?_reverse] at hc))]
  exact List.reverse_reverse l

/-- `splitn(2, ' ')` splits exactly at the first space. -/
theorem splitn2Space_append (xs ys : Text) (h : ' ' ∉ xs) :
    splitn2Space (xs ++ ' ' :: ys) = [xs, ys] := by
  induction xs with
  | nil => simp [splitn2Space]
  | cons c cs ih =>
    have hc : ¬c = ' ' := fun hh => h (by simp [hh])
    have h' : ' ' ∉ cs := fun hh => h (by simp [hh])
    simp only [List.cons_append, splitn2Space, if_neg hc, List.append_eq]
    rw [ih h']

/-- The hypotheses on one `(relative-path, digest)` record under which
the manifest round-trip holds: nonempty path with no leading or trailing
Unicode whitespace and no embedded newline; nonempty digest with no
Unicode whitespace at all and not starting with the comment marker. -/
def recordOk (rc : String × ChecksumValue) : Prop :=
  rc.1.toList ≠ [] ∧
  (∀ c, rc.1.toList.head? = some c → rustIsWhitespace c = false) ∧
  (∀ c, rc.1.toList.getLast? = some c → rustIsWhitespace c = false) ∧
  '\n' ∉ rc.1.toList ∧
  rc.2.hex.toList ≠ [] ∧
  (∀ c ∈ rc.2.hex.toList, rustIsWhitespace c = false) ∧
  rc.2.hex.toList.head? ≠ some ';'

/-- The first header line of a generated manifest. -/
def headerLine1 : Text := "; Checksum file generated by BackUP".toList

/-- The second header line of a generated manifest. -/
def headerLine2 (alg : ChecksumAlgorithm) : Text :=
  ("; Algorithm: " ++ alg.render).toList

/-- The generated manifest, reshaped into its three newline-terminated
header lines followed by the newline-terminated record lines. -/
theorem generate_eq (records : List (String × ChecksumValue))
    (alg : ChecksumAlgorithm) :
    generate_checksum_file records alg =
      headerLine1 ++ '\n' :: (headerLine2 alg ++ '\n' :: ('\n' ::
        (records.map fun rc =>
          rc.2.hex.toList ++ ' ' :: rc.1.toList ++ ['\n']).flatten)) := by
  cases alg <;> rfl

/-- No newline occurs inside a well-formed record's line. -/
theorem recordLine_no_newline (p : String) (cv : ChecksumValue)
    (hok : recordOk (p, cv)) :
    '\n' ∉ cv.hex.toList ++ ' ' :: p.toList := by
  obtain ⟨hp, hph, hpl, hpn, hh, hhw, hhs⟩ := hok
  intro hmem
  rcases List.mem_append.1 hmem with hm | hm
  · exact absurd (hhw _ hm) (by decide)
  · rcases List.mem_cons.1 hm with hm | hm
    · exact absurd hm (by decide)
    · exact hpn hm

/-- A well-formed record's line ends in the path's last character, which
is not whitespace. -/
theorem recordLine_getLast (p : String) (cv : ChecksumValue)
    (hok : recordOk (p, cv)) :
    ∀ c, (cv.hex.toList ++ ' ' :: p.toList).getLast? = some c →
      rustIsWhitespace c = false := by
  obtain ⟨hp, hph, hpl, hpn, hh, hhw, hhs⟩ := hok
  intro c hc
  rw [List.getLast?_append] at hc
  rcases hg : p.toList.getLast? with _ | c0
  · exact absurd hg (by simpa [List.getLast?_eq_none_iff] using hp)
  · have : (' ' :: p.toList).getLast? = some c0 := by
      have : (' ' :: p.toList) = [' '] ++ p.toList := rfl
      rw [this, List.getLast?_append, hg]; rfl
    rw [this] at hc
    simp only [Option.or_some, Option.some.injEq] at hc
    subst hc
    exact hpl c0 hg

/-- The record lines of a generated manifest, as recovered by
`str::lines`. -/
theorem rustLines_recordBody (records : List (String × ChecksumValue))
    (h : ∀ rc ∈ records, recordOk rc) :
    rustLines ((records.map fun rc =>
        rc.2.hex.toList ++ ' ' :: rc.1.toList ++ ['\n']).flatten) =
      records.map fun rc => rc.2.hex.toList ++ ' ' :: rc.1.toList := by
  induction records with
  | nil => rfl
  | cons rc rest ih =>
    have hok := h rc (by simp)
    have hshape :
        (rc.2.hex.toList ++ ' ' :: rc.1.toList ++ ['\n']) ++
            ((rest.map fun rc =>
              rc.2.hex.toList ++ ' ' :: rc.1.toList ++ ['\n']).flatten) =
          (rc.2.hex.toList ++ ' ' :: rc.1.toList) ++ '\n' ::
            ((rest.map fun rc =>
              rc.2.hex.toList ++ ' ' :: rc.1.toList ++ ['\n']).flatten) := by
      simp
    simp only [List.map_cons, List.flatten_cons, hshape]
    rw [rustLines_cons _ _ (recordLine_no_newline rc.1 rc.2 hok)
      (fun hc => by
        have := recordLine_getLast rc.1 rc.2 hok '\r' hc
        exact absurd this (by decide))]
    rw [ih (fun rc' hrc' => h rc' (by simp [hrc']))]

/-- `str::lines` of a generated manifest: the two header lines, the blank
line, then one line per record. -/
theorem rustLines_generate (records : List (String × ChecksumValue))
    (alg : ChecksumAlgorithm) (h : ∀ rc ∈ records, recordOk rc) :
    rustLines (generate_checksum_file records alg) =
      headerLine1 :: headerLine2 alg :: ([] : Text) ::
        (records.map fun rc => rc.2.hex.toList ++ ' ' :: rc.1.toList) := by
  rw [generate_eq]
  rw [rustLines_cons _ _ (by decide) (by decide)]
  rw [rustLines_cons _ _ (by cases alg <;> decide) (by cases alg <;> decide)]
  have hnil : ('\n' :: (records.map fun rc =>
      rc.2.hex.toList ++ ' ' :: rc.1.toList ++ ['\n']).flatten) =
      ([] : Text) ++ '\n' :: (records.map fun rc =>
        rc.2.hex.toList ++ ' ' :: rc.1.toList ++ ['\n']).flatten := rfl
  rw [hnil, rustLines_cons _ _ (by simp) (by simp)]
  rw [rustLines_recordBody records h]

/-- The parse loop ignores the generated header and blank lines. -/
theorem verifyLines_skip_headers (f : String → Except EngineError ChecksumValue)
    (alg : ChecksumAlgorithm) (L : List Text) :
    verifyLines f (headerLine1 :: headerLine2 alg :: ([] : Text) :: L) =
      verifyLines f L := by
  cases alg <;> rfl

/-- The parse loop consumes one well-formed record line into one matching
result record. -/
theorem verifyLines_record (f : String → Except EngineError ChecksumValue)
    (p : String) (cv : ChecksumValue) (rest : List Text)
    (out : List (String × ChecksumValue × ChecksumValue × Bool))
    (hok : recordOk (p, cv)) (hf : f p = .ok cv)
    (hrest : verifyLines f rest = .ok out) :
    verifyLines f ((cv.hex.toList ++ ' ' :: p.toList) :: rest) =
      .ok ((p, cv, cv, true) :: out) := by
  obtain ⟨hp, hph, hpl, hpn, hh, hhw, hhs⟩ := hok
  have hokk : recordOk (p, cv) := ⟨hp, hph, hpl, hpn, hh, hhw, hhs⟩
  have htrim : trimText (cv.hex.toList ++ ' ' :: p.toList) =
      cv.hex.toList ++ ' ' :: p.toList := by
    refine trimText_eq_self _ ?_ (recordLine_getLast p cv hokk)
    intro c hc
    rcases hhex : cv.hex.toList with _ | ⟨c0, cs⟩
    · exact absurd hhex hh
    · rw [hhex] at hc
      simp only [List.cons_append, List.head?_cons, Option.some.injEq] at hc
      subst hc
      exact hhw _ (by rw [hhex]; exact List.mem_cons_self _ _)
  have hsp : ' ' ∉ cv.hex.toList := fun hm =>
    absurd (hhw ' ' hm) (by decide)
  have hsplit := splitn2Space_append cv.hex.toList p.toList hsp
  have hempty : (cv.hex.toList ++ ' ' :: p.toList).isEmpty = false := by
    rcases hhex : cv.hex.toList with _ | ⟨c0, cs⟩
    · exact absurd hhex hh
    · rfl
  have hheadne : ((cv.hex.toList ++ ' ' :: p.toList).head? == some ';') =
      false := by
    rcases hhex : cv.hex.toList with _ | ⟨c0, cs⟩
    · exact absurd hhex hh
    · have hc0 : ¬c0 = ';' := fun hcc => hhs (by rw [hhex, hcc]; rfl)
      simp [hc0]
  have hmkp : String.mk p.toList = p := rfl
  have hms : (cv.hex.toList == cv.hex.toList) = true := beq_self_eq_true _
  have hexp : (⟨cv.algorithm, String.mk cv.hex.toList⟩ : ChecksumValue) =
      cv := by
    cases cv
    rfl
  simp only [verifyLines, htrim, hempty, hheadne, Bool.or_self,
    Bool.or_false, Bool.false_or, Bool.false_eq_true, if_false, hsplit,
    hmkp, hf, hms, hexp, hrest]

/-- C8 counterexample: the record `("p", digest "a b")` satisfies the
claim's path hypotheses, and the lookup returns the recorded digest for
the recorded path, yet parsing the generated manifest yields the record
`("b p", "a", "a b", false)` instead of `("p", "a b", "a b", true)` — the
space inside the digest shifts the `splitn(2, ' ')` boundary. -/
theorem manifest_roundtrip_counterexample :
    (∀ rc ∈ ([("p", ChecksumValue.mk .sha256 "a b")] :
        List (String × ChecksumValue)),
      (fun _ : String =>
        (.ok (ChecksumValue.mk .sha256 "a b") :
          Except EngineError ChecksumValue)) rc.1 = .ok rc.2) ∧
    ("p" : String).toList ≠ [] ∧
    (∀ c, ("p" : String).toList.head? = some c →
      rustIsWhitespace c = false) ∧
    (∀ c, ("p" : String).toList.getLast? = some c →
      rustIsWhitespace c = false) ∧
    verify_checksum_file
        (generate_checksum_file [("p", ChecksumValue.mk .sha256 "a b")]
          .sha256)
        (fun _ => .ok (ChecksumValue.mk .sha256 "a b")) =
      .ok [("b p", ChecksumValue.mk .sha256 "a",
            ChecksumValue.mk .sha256 "a b", false)] ∧
    ([("b p", ChecksumValue.mk .sha256 "a",
        ChecksumValue.mk .sha256 "a b", false)] :
      List (String × ChecksumValue × ChecksumValue × Bool)) ≠
      [("p", ChecksumValue.mk .sha256 "a b",
        ChecksumValue.mk .sha256 "a b", true)] := by
  refine ⟨by simp, by decide, by decide, by decide, by rfl, by decide⟩

/-- C8 (amended): parsing ignores blank lines and lines beginning with
`;`, and for every record list whose paths are nonempty with no leading or
trailing whitespace and no embedded newline, and whose digests are
nonempty, contain no whitespace and do not begin with `;`, parsing the
generated manifest with a lookup that returns the recorded digest for each
recorded path yields exactly those records in order, each marked matching;
the header lines contribute no records. -/
theorem manifest_roundtrip_amended (records : List (String × ChecksumValue))
    (alg : ChecksumAlgorithm)
    (f : String → Except EngineError ChecksumValue)
    (hok : ∀ rc ∈ records, recordOk rc)
    (hf : ∀ rc ∈ records, f rc.1 = .ok rc.2) :
    verify_checksum_file (generate_checksum_file records alg) f =
      .ok (records.map fun rc => (rc.1, rc.2, rc.2, true)) := by
  unfold verify_checksum_file
  rw [rustLines_generate records alg hok, verifyLines_skip_headers]
  induction records with
  | nil => rfl
  | cons rc rest ih =>
    simp only [List.map_cons]
    exact verifyLines_record f rc.1 rc.2 _ _ (hok rc (by simp))
      (hf rc (by simp))
      (ih (fun rc' h' => hok rc' (by simp [h']))
          (fun rc' h' => hf rc' (by simp [h'])))

/-- Witness for C8's amended theorem: a two-record manifest with sha256
digests round-trips. -/
theorem manifest_roundtrip_amended_witness :
    verify_checksum_file
        (generate_checksum_file
          [("file1.txt", ChecksumValue.mk .sha256 "abc123"),
           ("sub/file2.txt", ChecksumValue.mk .sha256 "def456")] .sha256)
        sampleManifestLookup =
      .ok [("file1.txt", ChecksumValue.mk .sha256 "abc123",
            ChecksumValue.mk .sha256 "abc123", true),
           ("sub/file2.txt", ChecksumValue.mk .sha256 "def456",
            ChecksumValue.mk .sha256 "def456", true)] := by
  exact manifest_roundtrip_amended _ .sha256 sampleManifestLookup
    (by intro rc hrc; fin_cases hrc <;> refine ⟨?_, ?_, ?_, ?_, ?_, ?_, ?_⟩ <;>
      decide)
    (by intro rc hrc; fin_cases hrc <;> rfl)

end BackUP
